import Mathlib

/-!
Verification development for the ermete edge server (Go).

Shallow embedding of the core of the repository:
  * `internal/storage/frame_store.go` — `SaveFrame`, the idempotency cache,
    `sanitizeToken`, `extFromContentType`, `ReadAllLimited`;
  * `internal/httpapi/router.go` — `handleFrameUpload`, `requirePSK`,
    `Limiter.allow`;
  * `internal/session` — `Manager` (Acquire / Release / SetState / Touch /
    Snapshot);
  * `internal/webrtc` — the lock behaviour of `PeerSession.Close` on the
    kick path.

Go strings are modelled as lists of characters (`GoStr`), byte slices as
`List Nat`, `time.Time` instants and `time.Duration` as `Int`
(nanoseconds), and the store's interaction with the file system as an
explicit list of performed writes.  Standard-library functions that the
code calls (crypto/sha256, fmt's decimal rendering, golang.org/x/time/rate
buckets) are either abstracted into function parameters of the embedding
or modelled directly where their behaviour matters to a claim.
-/

/-- Go strings, modelled rune by rune. -/
abbrev GoStr := List Char

/-- Convenience conversion from a Lean string literal to the model. -/
def gostr (s : String) : GoStr := s.toList

/-- Membership of a rune in the character class `[a-zA-Z0-9._-]` of the
`safeToken` regular expression (frame_store.go line 19). -/
def isSafeTokenChar (c : Char) : Bool :=
  (('a' ≤ c && c ≤ 'z') || ('A' ≤ c && c ≤ 'Z') || ('0' ≤ c && c ≤ '9')
    || c = '.' || c = '_' || c = '-')

/-- Model of Go `strings.TrimSpace`: drop leading and trailing whitespace. -/
def goTrimSpace (s : GoStr) : GoStr :=
  ((s.dropWhile Char.isWhitespace).reverse.dropWhile Char.isWhitespace).reverse

/-- `sanitizeToken` (frame_store.go lines 211-214): trim whitespace, then the
regexp `safeToken.ReplaceAllString(trimmed, "_")` replaces every rune outside
`[a-zA-Z0-9._-]` with an underscore. -/
def sanitizeToken (s : GoStr) : GoStr :=
  (goTrimSpace s).map (fun c => if isSafeTokenChar c then c else '_')

/-- Decimal digit characters, used to model `fmt.Sprintf` with `%d`. -/
def digitChar (d : Nat) : Char := Char.ofNat (48 + d)

/-- Fuel-driven base-10 digit accumulator (the fuel bounds the number of
divisions by ten; `n` itself is always enough fuel). -/
def natDigitsGo : Nat → Nat → GoStr → GoStr
  | 0, _, acc => acc
  | fuel + 1, n, acc =>
      if n = 0 then acc else natDigitsGo fuel (n / 10) (digitChar (n % 10) :: acc)

/-- Decimal rendering of a natural number, modelling Go `fmt` `%d`. -/
def natDigits (n : Nat) : GoStr :=
  if n = 0 then [ '0' ] else natDigitsGo n n []

/-- Decimal rendering of an `int64`, modelling Go `fmt` `%d`. -/
def intToStr (i : Int) : GoStr :=
  if i < 0 then '-' :: natDigits (-i).toNat else natDigits i.toNat

/-- Model of Go `strings.ToLower` on the runes of a string. -/
def toLowerStr (s : GoStr) : GoStr := s.map Char.toLower

/-- Model of Go `strings.Contains hay needle`: does `needle` occur as a
contiguous substring of `hay`? -/
def containsSub (needle : GoStr) : GoStr → Bool
  | [] => needle.isPrefixOf ([] : GoStr)
  | c :: rest => needle.isPrefixOf (c :: rest) || containsSub needle rest

/-- `extFromContentType` (frame_store.go lines 216-226). -/
def extFromContentType (ct : GoStr) : GoStr :=
  let l := toLowerStr ct
  if containsSub (gostr "png") l then gostr ".png"
  else if containsSub (gostr "jpeg") l || containsSub (gostr "jpg") l then gostr ".jpg"
  else gostr ".bin"

/-- Modelled from the Go standard library: `filepath.Join(dir, name)` for the
arguments SaveFrame produces (a nonempty `name` with no separator that is
neither `.` nor `..`), where Join reduces to `dir + "/" + name`. -/
def fsJoin (dir name : GoStr) : GoStr := dir ++ '/' :: name

/-- `ReadAllLimited` (frame_store.go lines 228-238): a `LimitedReader` yields
at most `maxBytes + 1` bytes, and a result longer than `maxBytes` is the
sentinel error. -/
def readAllLimited (data : List Nat) (maxBytes : Nat) : Except GoStr (List Nat) :=
  if (data.take (maxBytes + 1)).length > maxBytes then
    Except.error (gostr "payload too large")
  else Except.ok (data.take (maxBytes + 1))

/-- `FrameMeta` (frame_store.go lines 21-32). -/
structure FrameMeta where
  frameID : GoStr
  timestamp : GoStr
  idempotencyKey : GoStr
  fileName : GoStr
  path : GoStr
  size : Int
  contentType : GoStr
  sha256 : GoStr
  receivedAt : Int
  duplicate : Bool
deriving DecidableEq, Repr

/-- The Go zero value of `FrameMeta`. -/
def metaZero : FrameMeta :=
  { frameID := [], timestamp := [], idempotencyKey := [], fileName := []
  , path := [], size := 0, contentType := [], sha256 := [], receivedAt := 0
  , duplicate := false }

/-- `idemEntry` (frame_store.go lines 34-38); the list element handle is
represented by the entry's position in the ordered association list. -/
structure IdemEntry where
  frameMeta : FrameMeta
  seenAt : Int
deriving DecidableEq, Repr

/-- The instants `SaveFrame` samples from `time.Now()` during one call, plus
the RFC3339 rendering used for a defaulted timestamp. -/
structure SaveClock where
  now : Int
  nanoID : Int
  nanoName : Int
  nowRFC3339 : GoStr
deriving DecidableEq, Repr

/-- `FrameStore` (frame_store.go lines 40-54).  The `byIdempotency` map and
the `idemOrder` insertion-order list are represented together as one
association list kept in insertion order (front = oldest); `evictions`
mirrors the `IdempotencyEvictionsTotal` counter. -/
structure FrameStore where
  framesDir : GoStr
  byIdempotency : List (GoStr × IdemEntry)
  idemTTL : Int
  idemMax : Nat
  last : FrameMeta
  count : Nat
  evictions : Nat
deriving DecidableEq, Repr

/-- Lookup in an association list (a Go map read `m[k]`). -/
def alookup {α : Type} (k : GoStr) : List (GoStr × α) → Option α
  | [] => none
  | (k', v) :: rest => if k = k' then some v else alookup k rest

/-- Removal from an association list (a Go map `delete(m, k)` together with
removing that entry's element from the order list). -/
def aerase {α : Type} (k : GoStr) : List (GoStr × α) → List (GoStr × α)
  | [] => []
  | (k', v) :: rest => if k = k' then rest else (k', v) :: aerase k rest

/-- Insert-or-replace in an association list (a Go map write `m[k] = v`). -/
def aupsert {α : Type} (k : GoStr) (v : α) : List (GoStr × α) → List (GoStr × α)
  | [] => [(k, v)]
  | (k', v') :: rest =>
      if k = k' then (k, v) :: rest else (k', v') :: aupsert k v rest

/-- The eviction loop of `addIdemEntryLocked` (frame_store.go lines 159-169):
while the cache is over `maxEntries`, remove the front (oldest) entry and
count one eviction signal. -/
def evictOldestLoop (maxEntries : Nat) :
    List (GoStr × IdemEntry) → List (GoStr × IdemEntry) × Nat
  | [] => ([], 0)
  | e :: rest =>
      if rest.length + 1 > maxEntries then
        let p := evictOldestLoop maxEntries rest
        (p.1, p.2 + 1)
      else (e :: rest, 0)

/-- `removeIdemEntryLocked` (frame_store.go lines 172-181). -/
def removeIdemEntryLocked (key : GoStr) (s : FrameStore) : FrameStore :=
  { s with byIdempotency := aerase key s.byIdempotency }

/-- `addIdemEntryLocked` (frame_store.go lines 156-170): push the new entry at
the back, then evict from the front while over capacity, bumping the
eviction counter once per removed entry. -/
def addIdemEntryLocked (key : GoStr) (meta : FrameMeta) (now : Int)
    (s : FrameStore) : FrameStore :=
  let appended := s.byIdempotency ++ [(key, { frameMeta := meta, seenAt := now })]
  let p := evictOldestLoop s.idemMax appended
  { s with byIdempotency := p.1, evictions := s.evictions + p.2 }

/-- The write-and-record tail of `SaveFrame` (frame_store.go lines 129-153),
reached when the call is not a fresh-duplicate hit.  `hashHex` abstracts
`hex.EncodeToString(sha256.Sum256(payload))`; the returned middle component
lists the file writes performed (`os.WriteFile`), and `diskWriteOk` says
whether that write succeeds. -/
def saveFrameWrite (hashHex : List Nat → GoStr) (s : FrameStore)
    (frameID timestamp idem contentType cleanID : GoStr) (payload : List Nat)
    (clk : SaveClock) (diskWriteOk : Bool) :
    FrameStore × List (GoStr × List Nat) × Except GoStr FrameMeta :=
  let ext := extFromContentType contentType
  let name := cleanID ++ '_' :: (intToStr clk.nanoName ++ ext)
  let fullPath := fsJoin s.framesDir name
  if diskWriteOk then
    let meta : FrameMeta :=
      { frameID := frameID, timestamp := timestamp, idempotencyKey := idem
      , fileName := name, path := fullPath, size := (payload.length : Int)
      , contentType := contentType, sha256 := hashHex payload
      , receivedAt := clk.now, duplicate := false }
    let s1 := { s with last := meta, count := s.count + 1 }
    let s2 := if idem = [] then s1 else addIdemEntryLocked idem meta clk.now s1
    (s2, [(fullPath, payload)], Except.ok meta)
  else
    (s, [], Except.error (gostr "write frame"))

/-- `SaveFrame` (frame_store.go lines 105-154).  The two map reads on lines
119 and 124 are represented by one lookup followed by the freshness test. -/
def saveFrame (hashHex : List Nat → GoStr) (s : FrameStore)
    (frameID timestamp idem contentType : GoStr) (payload : List Nat)
    (clk : SaveClock) (diskWriteOk : Bool) :
    FrameStore × List (GoStr × List Nat) × Except GoStr FrameMeta :=
  let cleanID0 := sanitizeToken frameID
  let cleanID := if cleanID0 = [] then gostr "frame-" ++ intToStr clk.nanoID else cleanID0
  let timestamp := if timestamp = [] then clk.nowRFC3339 else timestamp
  match (if idem = [] then none else alookup idem s.byIdempotency) with
  | some existing =>
      if clk.now - existing.seenAt ≤ s.idemTTL then
        (s, [], Except.ok { existing.frameMeta with duplicate := true })
      else
        saveFrameWrite hashHex (removeIdemEntryLocked idem s)
          frameID timestamp idem contentType cleanID payload clk diskWriteOk
  | none =>
      saveFrameWrite hashHex s frameID timestamp idem contentType cleanID
        payload clk diskWriteOk

/-- One call of `SaveFrame` in a sequence: its arguments, the clock values it
samples, and whether its disk write would succeed. -/
structure SaveCall where
  frameID : GoStr
  timestamp : GoStr
  idem : GoStr
  contentType : GoStr
  payload : List Nat
  clk : SaveClock
  diskOk : Bool
deriving DecidableEq, Repr

/-- Run a sequence of `SaveFrame` calls against a store, collecting each
call's file writes and result. -/
def runCalls (hashHex : List Nat → GoStr) (s : FrameStore) :
    List SaveCall →
      FrameStore × List (List (GoStr × List Nat)) × List (Except GoStr FrameMeta)
  | [] => (s, [], [])
  | c :: rest =>
      let r := saveFrame hashHex s c.frameID c.timestamp c.idem c.contentType
        c.payload c.clk c.diskOk
      let t := runCalls hashHex r.1 rest
      (t.1, r.2.1 :: t.2.1, r.2.2 :: t.2.2)

/-- `config.SessionPolicy` (config.go lines 11-16). -/
inductive SessionPolicy where
  | rejectSecond
  | kickPrevious
deriving DecidableEq, Repr

/-- `session.State` (manager source lines 55-61). -/
inductive SessionState where
  | disconnected
  | connecting
  | connected
deriving DecidableEq, Repr

/-- The error returned by `Manager.Acquire`: `ErrSessionAlreadyActive`. -/
inductive SessionErr where
  | alreadyActive
deriving DecidableEq, Repr

/-- `session.Manager` (manager source lines 74-80).  The `active SessionRef`
field is represented by the session's id (`ID()`), `nil` as `none`. -/
structure SessionManager where
  policy : SessionPolicy
  state : SessionState
  active : Option GoStr
  lastActive : Int
deriving DecidableEq, Repr

/-- `session.Snapshot` (manager source lines 68-72). -/
structure SessionSnapshot where
  state : SessionState
  sessionId : GoStr
  lastActive : Int
deriving DecidableEq, Repr

/-- `NewManager` (manager source lines 82-84): zero-valued fields apart from
the policy and the explicit Disconnected state. -/
def newManager (policy : SessionPolicy) : SessionManager :=
  { policy := policy, state := SessionState.disconnected, active := none
  , lastActive := 0 }

/-- `Manager.Acquire` (manager source lines 86-100).  The middle component
records the `Close(reason)` calls made on the incumbent (the kick path). -/
def mgrAcquire (m : SessionManager) (sid : GoStr) (now : Int) :
    SessionManager × List (GoStr × GoStr) × Option SessionErr :=
  match m.active with
  | some incumbent =>
      if m.policy = SessionPolicy.rejectSecond then
        (m, [], some SessionErr.alreadyActive)
      else
        ({ m with
            active := some sid, state := SessionState.connecting,
            lastActive := now },
          [(incumbent, gostr "replaced_by_new_session")], none)
  | none =>
      ({ m with
          active := some sid, state := SessionState.connecting,
          lastActive := now }, [], none)

/-- `Manager.Release` (manager source lines 115-123). -/
def mgrRelease (m : SessionManager) (sid : GoStr) (now : Int) : SessionManager :=
  match m.active with
  | some a =>
      if a = sid then
        { m with
            active := none, state := SessionState.disconnected,
            lastActive := now }
      else m
  | none => m

/-- `Manager.SetState` (manager source lines 102-107). -/
def mgrSetState (m : SessionManager) (st : SessionState) (now : Int) :
    SessionManager :=
  { m with state := st, lastActive := now }

/-- `Manager.Touch` (manager source lines 109-113). -/
def mgrTouch (m : SessionManager) (now : Int) : SessionManager :=
  { m with lastActive := now }

/-- `Manager.Snapshot` (manager source lines 125-133): the session id is
empty when no session is held. -/
def mgrSnapshot (m : SessionManager) : SessionSnapshot :=
  { state := m.state
  , sessionId := match m.active with | some a => a | none => []
  , lastActive := m.lastActive }

/-- One operation on the session manager, with the instant it happens. -/
inductive MgrOp where
  | acquireOp (sid : GoStr) (now : Int)
  | releaseOp (sid : GoStr) (now : Int)
  | setStateOp (st : SessionState) (now : Int)
  | touchOp (now : Int)
deriving DecidableEq, Repr

/-- Apply one manager operation to the manager state (a rejected Acquire
leaves the state unchanged). -/
def applyOp (m : SessionManager) : MgrOp → SessionManager
  | MgrOp.acquireOp sid now => (mgrAcquire m sid now).1
  | MgrOp.releaseOp sid now => mgrRelease m sid now
  | MgrOp.setStateOp st now => mgrSetState m st now
  | MgrOp.touchOp now => mgrTouch m now

/-- Number of session references the manager holds. -/
def activeCount (m : SessionManager) : Nat :=
  match m.active with
  | some _ => 1
  | none => 0

/-- The manager invariant of the specification: at most one session
reference, and the snapshot is Disconnected exactly when its session id is
empty. -/
def mgrInv (m : SessionManager) : Prop :=
  activeCount m ≤ 1 ∧
    ((mgrSnapshot m).state = SessionState.disconnected ↔
      (mgrSnapshot m).sessionId = [])

instance (m : SessionManager) : Decidable (mgrInv m) := by
  unfold mgrInv; infer_instance

/-- Side condition under which one operation keeps the state/session-id
equivalence: Acquire installs a non-empty id, and SetState is used in
agreement with the presence of a session (as the code's callers do). -/
def stepOKb (m : SessionManager) : MgrOp → Bool
  | MgrOp.acquireOp sid _ => decide (sid ≠ [])
  | MgrOp.setStateOp st _ =>
      decide ((st = SessionState.disconnected) ↔ (mgrSnapshot m).sessionId = [])
  | MgrOp.releaseOp _ _ => true
  | MgrOp.touchOp _ => true

/-- All operations of a sequence satisfy `stepOKb` at the state where they
run. -/
def okSeq (m : SessionManager) : List MgrOp → Bool
  | [] => true
  | op :: rest => stepOKb m op && okSeq (applyOp m op) rest

/-- One primitive action in the lock model of the kick path: acquiring or
releasing the manager mutex or the peer latch, or a lock-free action (a
best-effort send, closing the peer connection or the transport, or a plain
field update). -/
inductive LAct where
  | lockMgr
  | unlockMgr
  | lockPeer
  | unlockPeer
  | act
deriving DecidableEq, Repr

/-- Single-goroutine execution of a trace over the two non-reentrant
mutexes: acquiring a mutex this goroutine already holds blocks it forever
(`none`), exactly as Go's `sync.Mutex` does. -/
def runTrace : List LAct → Bool × Bool → Option (Bool × Bool)
  | [], st => some st
  | a :: rest, (mgr, peer) =>
      match a with
      | LAct.lockMgr => if mgr then none else runTrace rest (true, peer)
      | LAct.unlockMgr => runTrace rest (false, peer)
      | LAct.lockPeer => if peer then none else runTrace rest (mgr, true)
      | LAct.unlockPeer => runTrace rest (mgr, false)
      | LAct.act => runTrace rest (mgr, peer)

/-- Lock trace of `Manager.Release` (manager source lines 115-123): take the
manager mutex, update the slot, release it. -/
def releaseTrace : List LAct := [LAct.lockMgr, LAct.act, LAct.unlockMgr]

/-- Lock trace of `PeerSession.Close` on a not-yet-closed session
(webrtc service, `Close`, lines 82-97): flip the `closed` latch under the
peer mutex, send the two best-effort frames, close the peer connection and
the transport, then call `Manager.Release` before returning. -/
def closeTrace : List LAct :=
  [LAct.lockPeer, LAct.act, LAct.unlockPeer,
   LAct.act, LAct.act, LAct.act, LAct.act] ++ releaseTrace

/-- Lock trace of `Manager.Acquire` under KickPrevious with an incumbent
(manager source lines 86-100): lock the manager mutex, call the incumbent's
`Close` inline while holding it, install the new peer, unlock via defer. -/
def kickAcquireTrace : List LAct :=
  [LAct.lockMgr] ++ closeTrace ++ [LAct.act, LAct.unlockMgr]

/-- A rate-limiter table entry (`limiterEntry`, router.go lines 207-210);
`β` is the abstract state of a `golang.org/x/time/rate` token bucket. -/
structure LimEntry (β : Type) where
  bucket : β
  lastSeen : Int
deriving DecidableEq, Repr

/-- `Limiter` (router.go lines 212-219); `evictions` mirrors the
`RateLimiterEvictionsTotal` counter. -/
structure Limiter (β : Type) where
  limiters : List (GoStr × LimEntry β)
  ttl : Int
  maxEntries : Nat
  evictions : Nat
deriving DecidableEq, Repr

/-- `Limiter.allow` (router.go lines 247-271).  `newBucket` stands for
`rate.NewLimiter(rate.Limit(rps), burst)` and `allowFn` for the bucket's
`Allow()` method (consume a token, returning the verdict and the new bucket
state); both are opaque library behaviour. -/
def limiterAllow {β : Type} (newBucket : β) (allowFn : β → Bool × β)
    (l : Limiter β) (ip : GoStr) (now : Int) : Limiter β × Bool :=
  match alookup ip l.limiters with
  | none =>
      if l.limiters.length ≥ l.maxEntries then
        ({ l with evictions := l.evictions + 1 }, false)
      else
        let r := allowFn newBucket
        ({ l with
            limiters := aupsert ip { bucket := r.2, lastSeen := now } l.limiters },
          r.1)
  | some entry =>
      let r := allowFn entry.bucket
      ({ l with
          limiters := aupsert ip { bucket := r.2, lastSeen := now } l.limiters },
        r.1)

/-- Outcome of the `requirePSK` middleware for one request. -/
inductive AuthOutcome where
  | pass
  | unauthorizedMissing
  | unauthorizedInvalid
deriving DecidableEq, Repr

/-- Model of `subtle.ConstantTimeCompare` on the UTF-8 bytes of two strings:
1 exactly when the byte slices are equal (equal length and contents), else
0. -/
def constantTimeCompare (x y : GoStr) : Nat := if x = y then 1 else 0

/-- `requirePSK` (router.go lines 149-167).  `headerVal` is the value of the
configured PSK header and `queryVal` the `psk` query parameter, each the
empty string when absent. -/
def requirePSK (headerVal queryVal : GoStr) (allowQuery : Bool)
    (cfgPSK : GoStr) : AuthOutcome :=
  let provided := if headerVal = [] && allowQuery then queryVal else headerVal
  if provided = [] then AuthOutcome.unauthorizedMissing
  else if constantTimeCompare provided cfgPSK ≠ 1 then
    AuthOutcome.unauthorizedInvalid
  else AuthOutcome.pass

/-- The PSK gate of `config.Load` (config.go lines 77-81): an empty
`ERMETE_PSK` is refused unless `ERMETE_ALLOW_NO_PSK` is set. -/
def loadPSKCheck (psk : GoStr) (allowNoPSK : Bool) : Except GoStr Unit :=
  if psk = [] && !allowNoPSK then
    Except.error (gostr "ERMETE_PSK is required unless ERMETE_ALLOW_NO_PSK=true")
  else Except.ok ()

/-- `detectMultipartContentType` (router.go lines 185-190). -/
def detectMultipartContentType (partCT : GoStr) : GoStr :=
  if partCT ≠ [] then partCT else gostr "application/octet-stream"

/-- `readMultipartPayload` (router.go lines 169-183): `parseErr` is an error
of `ParseMultipartForm`, `fileErr` of `FormFile`; the `file` part bytes are
then read through `ReadAllLimited`. -/
def readMultipartPayload (parseErr fileErr : Option GoStr)
    (fileBytes : List Nat) (partCT : GoStr) (maxBytes : Nat) :
    Except GoStr (List Nat × GoStr) :=
  match parseErr with
  | some e => Except.error e
  | none =>
      match fileErr with
      | some e => Except.error e
      | none =>
          match readAllLimited fileBytes maxBytes with
          | Except.error e => Except.error e
          | Except.ok p => Except.ok (p, detectMultipartContentType partCT)

/-- The payload source of an upload request: a raw body, or a multipart form
(the branch `handleFrameUpload` takes on the `multipart/form-data` content
type, router.go line 120). -/
inductive PayloadSource where
  | raw (data : List Nat)
  | form (parseErr fileErr : Option GoStr) (fileBytes : List Nat) (partCT : GoStr)
deriving DecidableEq, Repr

/-- Equality of `Except` values is decidable when it is on both sides. -/
instance exceptDecEq {ε α : Type} [DecidableEq ε] [DecidableEq α] :
    DecidableEq (Except ε α) := fun x y =>
  match x, y with
  | Except.ok a, Except.ok b =>
      if h : a = b then isTrue (by rw [h])
      else isFalse (by intro hh; cases hh; exact h rfl)
  | Except.error a, Except.error b =>
      if h : a = b then isTrue (by rw [h])
      else isFalse (by intro hh; cases hh; exact h rfl)
  | Except.ok _, Except.error _ => isFalse (by intro hh; cases hh)
  | Except.error _, Except.ok _ => isFalse (by intro hh; cases hh)

/-- What one run of `handleFrameUpload` produced: the store afterwards, the
file writes performed, the result of the `SaveFrame` call when one was made,
the HTTP status, and the `error` field of the JSON body on failure. -/
structure UploadResult where
  store : FrameStore
  writes : List (GoStr × List Nat)
  saveResult : Option (Except GoStr FrameMeta)
  status : Nat
  errBody : GoStr
deriving DecidableEq, Repr

def readUploadPayload (contentType : GoStr) (src : PayloadSource)
    (maxBytes : Nat) : Except GoStr (List Nat × GoStr) :=
  match src with
  | PayloadSource.raw data =>
      match readAllLimited data maxBytes with
      | Except.error e => Except.error e
      | Except.ok p => Except.ok (p, contentType)
  | PayloadSource.form pe fe fb pct => readMultipartPayload pe fe fb pct maxBytes

/-- The tail of `handleFrameUpload` after the bounded read (router.go lines
125-147): 413 when the read error message contains "too large", 400 on any
other read error, then `SaveFrame` with 500 on failure and 200 on success. -/
def uploadAfterRead (hashHex : List Nat → GoStr) (s : FrameStore)
    (frameID timestamp idem : GoStr) (clk : SaveClock) (diskWriteOk : Bool)
    (readResult : Except GoStr (List Nat × GoStr)) : UploadResult :=
  match readResult with
  | Except.error e =>
      if containsSub (gostr "too large") (toLowerStr e) = true then
        { store := s, writes := [], saveResult := none, status := 413
        , errBody := gostr "payload too large" }
      else
        { store := s, writes := [], saveResult := none, status := 400
        , errBody := gostr "invalid payload" }
  | Except.ok pr =>
      let r := saveFrame hashHex s frameID timestamp idem pr.2 pr.1 clk diskWriteOk
      match r.2.2 with
      | Except.error e =>
          { store := r.1, writes := r.2.1, saveResult := some (Except.error e)
          , status := 500, errBody := gostr "failed to save frame" }
      | Except.ok meta =>
          { store := r.1, writes := r.2.1, saveResult := some (Except.ok meta)
          , status := 200, errBody := [] }

/-- `handleFrameUpload` (router.go lines 110-147): read the payload through
the bounded reader, then `uploadAfterRead`. -/
def handleFrameUpload (hashHex : List Nat → GoStr) (s : FrameStore)
    (maxBytes : Nat) (contentType frameID timestamp idem : GoStr)
    (src : PayloadSource) (clk : SaveClock) (diskWriteOk : Bool) : UploadResult :=
  uploadAfterRead hashHex s frameID timestamp idem clk diskWriteOk
    (readUploadPayload contentType src maxBytes)

/-- A path resolves inside a directory when it is the directory, a
separator, and one further nonempty component that is not a `.` or `..`
segment and holds no separator of its own. -/
def resolvesInside (dir path : GoStr) : Prop :=
  ∃ nm, path = dir ++ '/' :: nm ∧ nm ≠ [] ∧ nm ≠ gostr "." ∧
    nm ≠ gostr ".." ∧ '/' ∉ nm

/-!
Concrete fixtures used by witness and counterexample theorems below.
-/

/-- Expired entry under the key and a failing disk write: the entry is still
removed, so the cache is not exactly as before the call. -/
def storeExp : FrameStore :=
  { framesDir := gostr "d"
  , byIdempotency := [(gostr "k", { frameMeta := metaZero, seenAt := 0 })]
  , idemTTL := 5, idemMax := 10, last := metaZero, count := 0, evictions := 0 }

def clkLate : SaveClock :=
  { now := 100, nanoID := 1, nanoName := 2, nowRFC3339 := gostr "t" }

def hashLen : List Nat → GoStr := fun p => natDigits p.length

def storeA : FrameStore :=
  { framesDir := gostr "/data/frames", byIdempotency := [], idemTTL := 600
  , idemMax := 3, last := metaZero, count := 0, evictions := 0 }

def clkA : SaveClock :=
  { now := 10, nanoID := 11, nanoName := 12, nowRFC3339 := gostr "ta" }

def clkB : SaveClock :=
  { now := 20, nanoID := 21, nanoName := 22, nowRFC3339 := gostr "tb" }

def callA : SaveCall :=
  { frameID := gostr "f1", timestamp := [], idem := gostr "k"
  , contentType := gostr "image/png", payload := [1, 2, 3], clk := clkA
  , diskOk := true }

def callB : SaveCall :=
  { frameID := gostr "f2", timestamp := gostr "t", idem := gostr "k"
  , contentType := gostr "image/jpeg", payload := [9], clk := clkB
  , diskOk := true }

def opsW : List MgrOp :=
  [MgrOp.acquireOp (gostr "a") 0, MgrOp.setStateOp SessionState.connected 1,
    MgrOp.releaseOp (gostr "a") 2, MgrOp.touchOp 3]

def limW : Limiter Nat :=
  { limiters := [(gostr "ip1", { bucket := 2, lastSeen := 0 })], ttl := 60
  , maxEntries := 2, evictions := 0 }

def allowW : Nat → Bool × Nat := fun n => (decide (0 < n), n - 1)

theorem evictOldestLoop_eq (maxE : Nat) :
    ∀ l : List (GoStr × IdemEntry),
      evictOldestLoop maxE l = (l.drop (l.length - maxE), l.length - maxE)
  | [] => by simp [evictOldestLoop]
  | e :: rest => by
      have ih := evictOldestLoop_eq maxE rest
      by_cases h : rest.length + 1 > maxE
      · have h2 : rest.length + 1 - maxE = (rest.length - maxE) + 1 := by omega
        simp only [evictOldestLoop, if_pos h, ih, List.length_cons, h2,
          List.drop_succ_cons]
      · have h2 : rest.length + 1 - maxE = 0 := by omega
        simp only [evictOldestLoop, if_neg h, List.length_cons, h2, List.drop_zero]

theorem alookup_cons_ne {α : Type} (k k' : GoStr) (v : α) (l : List (GoStr × α))
    (h : ¬ k = k') : alookup k ((k', v) :: l) = alookup k l := by
  simp [alookup, h]

theorem alookup_append_self {α : Type} (k : GoStr) (v : α) :
    ∀ l : List (GoStr × α), alookup k l = none →
      alookup k (l ++ [(k, v)]) = some v
  | [], _ => by simp [alookup]
  | (k', v') :: rest, h => by
      by_cases hk : k = k'
      · simp [alookup, hk] at h
      · have h' : alookup k rest = none := by simpa [alookup, hk] using h
        simpa [alookup, hk] using alookup_append_self k v rest h'

theorem alookup_drop_none {α : Type} (k : GoStr) :
    ∀ (l : List (GoStr × α)) (d : Nat), alookup k l = none →
      alookup k (l.drop d) = none
  | _, 0, h => h
  | [], _ + 1, _ => by simp [alookup]
  | (k', v) :: rest, d + 1, h => by
      by_cases hk : k = k'
      · simp [alookup, hk] at h
      · have h' : alookup k rest = none := by simpa [alookup, hk] using h
        simpa using alookup_drop_none k rest d h'

theorem alookup_append_drop {α : Type} (k : GoStr) (v : α)
    (l : List (GoStr × α)) (d : Nat) (h : alookup k l = none)
    (hd : d ≤ l.length) : alookup k ((l ++ [(k, v)]).drop d) = some v := by
  rw [List.drop_append_of_le_length hd]
  exact alookup_append_self k v (l.drop d) (alookup_drop_none k l d h)

theorem saveFrame_dup (hashHex : List Nat → GoStr) (t : FrameStore)
    (k fID ts ct : GoStr) (m1 : FrameMeta) (n0 : Int) (payload : List Nat)
    (clk : SaveClock) (dOk : Bool) (hk : k ≠ [])
    (hl : alookup k t.byIdempotency = some { frameMeta := m1, seenAt := n0 })
    (hfresh : clk.now - n0 ≤ t.idemTTL) :
    saveFrame hashHex t fID ts k ct payload clk dOk =
      (t, [], Except.ok { m1 with duplicate := true }) := by
  unfold saveFrame
  simp [hk, hl, hfresh]

theorem runCalls_dup (hashHex : List Nat → GoStr) (t : FrameStore)
    (k : GoStr) (m1 : FrameMeta) (n0 : Int) (hk : k ≠ [])
    (hl : alookup k t.byIdempotency = some { frameMeta := m1, seenAt := n0 }) :
    ∀ calls : List SaveCall,
      (∀ c ∈ calls, c.idem = k ∧ c.clk.now - n0 ≤ t.idemTTL) →
      runCalls hashHex t calls =
        (t, calls.map (fun _ => []),
          calls.map (fun _ => Except.ok { m1 with duplicate := true }))
  | [], _ => by simp [runCalls]
  | c :: rest, h => by
      have hc := h c (List.mem_cons_self c rest)
      have hsf := saveFrame_dup hashHex t c.idem c.frameID c.timestamp
        c.contentType m1 n0 c.payload c.clk c.diskOk
        (by rw [hc.1]; exact hk) (by rw [hc.1]; exact hl) hc.2
      have hrest := runCalls_dup hashHex t k m1 n0 hk hl rest
        (fun d hd => h d (List.mem_cons_of_mem c hd))
      simp only [runCalls]
      simp [hsf, hrest]

/-- Claim C1: for a sequence of SaveFrame calls that share one non-empty
idempotency key, start from a store with no entry for it, and all fall
within the configured TTL of the first call, exactly one file is written
(by the first call); the first call returns a FrameMeta with
duplicate = false and every later call returns that same meta — equal
sha256, path and file_name — with duplicate = true, while the store (and
so the cached original entry) is left exactly as the first call made it. -/
theorem saveFrame_idem_sequence_once
    (hashHex : List Nat → GoStr) (s0 : FrameStore) (c0 : SaveCall)
    (rest : List SaveCall) (k : GoStr)
    (hk : k ≠ [])
    (h0 : c0.idem = k)
    (hrest : ∀ c ∈ rest, c.idem = k)
    (hnone : alookup k s0.byIdempotency = none)
    (hmax : 1 ≤ s0.idemMax)
    (hdisk : c0.diskOk = true)
    (httl : ∀ c ∈ rest, c.clk.now - c0.clk.now ≤ s0.idemTTL) :
    ∃ (m1 : FrameMeta) (s1 : FrameStore) (w1 : List (GoStr × List Nat)),
      runCalls hashHex s0 (c0 :: rest) =
        (s1, w1 :: rest.map (fun _ => []),
          Except.ok m1 :: rest.map (fun _ => Except.ok { m1 with duplicate := true }))
      ∧ m1.duplicate = false
      ∧ w1.length = 1
      ∧ alookup k s1.byIdempotency = some { frameMeta := m1, seenAt := c0.clk.now } := by
  let nm : GoStr :=
    (if sanitizeToken c0.frameID = [] then gostr "frame-" ++ intToStr c0.clk.nanoID
      else sanitizeToken c0.frameID) ++
      '_' :: (intToStr c0.clk.nanoName ++ extFromContentType c0.contentType)
  let m1 : FrameMeta :=
    { frameID := c0.frameID
    , timestamp := (if c0.timestamp = [] then c0.clk.nowRFC3339 else c0.timestamp)
    , idempotencyKey := k, fileName := nm, path := fsJoin s0.framesDir nm
    , size := (c0.payload.length : Int), contentType := c0.contentType
    , sha256 := hashHex c0.payload, receivedAt := c0.clk.now, duplicate := false }
  let s1 : FrameStore :=
    addIdemEntryLocked k m1 c0.clk.now { s0 with last := m1, count := s0.count + 1 }
  have hsf : saveFrame hashHex s0 c0.frameID c0.timestamp c0.idem c0.contentType
      c0.payload c0.clk c0.diskOk =
      (s1, [(fsJoin s0.framesDir nm, c0.payload)], Except.ok m1) := by
    rw [h0, hdisk]
    unfold saveFrame saveFrameWrite
    simp [hk, hnone, nm, m1, s1]
  have hTTL : s1.idemTTL = s0.idemTTL := by
    simp [s1, addIdemEntryLocked]
  have hlook : alookup k s1.byIdempotency =
      some { frameMeta := m1, seenAt := c0.clk.now } := by
    show alookup k (addIdemEntryLocked k m1 c0.clk.now
      { s0 with last := m1, count := s0.count + 1 }).byIdempotency = _
    unfold addIdemEntryLocked
    simp only [evictOldestLoop_eq]
    apply alookup_append_drop k _ s0.byIdempotency _ hnone
    simp only [List.length_append, List.length_cons, List.length_nil]
    omega
  have hrun := runCalls_dup hashHex s1 k m1 c0.clk.now hk hlook rest
    (fun c hc => ⟨hrest c hc, by rw [hTTL]; exact httl c hc⟩)
  refine ⟨m1, s1, [(fsJoin s0.framesDir nm, c0.payload)], ?_, rfl, rfl, hlook⟩
  simp only [runCalls]
  rw [hsf]
  simp [hrun]

theorem sanitizeToken_safe (s : GoStr) :
    ∀ c ∈ sanitizeToken s, isSafeTokenChar c = true := by
  intro c hc
  unfold sanitizeToken at hc
  obtain ⟨a, _, rfl⟩ := List.mem_map.1 hc
  by_cases h : isSafeTokenChar a
  · simp [h]
  · simp [h]
    decide

theorem digitChar_safe (d : Nat) (hd : d < 10) :
    isSafeTokenChar (digitChar d) = true := by
  interval_cases d <;> decide

theorem natDigitsGo_safe :
    ∀ (fuel n : Nat) (acc : GoStr), (∀ c ∈ acc, isSafeTokenChar c = true) →
      ∀ c ∈ natDigitsGo fuel n acc, isSafeTokenChar c = true
  | 0, _, _, hacc => hacc
  | fuel + 1, n, acc, hacc => by
      by_cases h : n = 0
      · simpa [natDigitsGo, h] using hacc
      · simp only [natDigitsGo, if_neg h]
        refine natDigitsGo_safe fuel (n / 10) _ ?_
        intro c hc
        rcases List.mem_cons.1 hc with hc | hc
        · subst hc; exact digitChar_safe _ (Nat.mod_lt n (by omega))
        · exact hacc c hc

theorem natDigits_safe (n : Nat) : ∀ c ∈ natDigits n, isSafeTokenChar c = true := by
  unfold natDigits
  by_cases h : n = 0
  · simp [h]; decide
  · simp only [if_neg h]
    exact natDigitsGo_safe n n [] (by intro c hc; simp at hc)

theorem intToStr_safe (i : Int) : ∀ c ∈ intToStr i, isSafeTokenChar c = true := by
  unfold intToStr
  by_cases h : i < 0
  · simp only [if_pos h]
    intro c hc
    rcases List.mem_cons.1 hc with hc | hc
    · subst hc; decide
    · exact natDigits_safe _ c hc
  · simp only [if_neg h]
    exact natDigits_safe _

theorem ext_cases (ct : GoStr) :
    extFromContentType ct = gostr ".png" ∨ extFromContentType ct = gostr ".jpg" ∨
      extFromContentType ct = gostr ".bin" := by
  unfold extFromContentType
  simp only []
  split_ifs <;> simp

theorem ext_safe (ct : GoStr) :
    ∀ c ∈ extFromContentType ct, isSafeTokenChar c = true := by
  rcases ext_cases ct with h | h | h <;> rw [h] <;> decide

theorem ext_length (ct : GoStr) : (extFromContentType ct).length = 4 := by
  rcases ext_cases ct with h | h | h <;> rw [h] <;> decide

theorem suffix_eq_of_length {α : Type} {l₁ l₂ s : List α}
    (h1 : l₁ <:+ s) (h2 : l₂ <:+ s) (hl : l₁.length = l₂.length) : l₁ = l₂ := by
  obtain ⟨t1, ht1⟩ := h1
  obtain ⟨t2, ht2⟩ := h2
  rw [← ht2] at ht1
  have hlen : t1.length = t2.length := by
    have := congrArg List.length ht1
    simp only [List.length_append] at this
    omega
  exact (List.append_inj ht1 hlen).2

theorem saveFrame_hit (hashHex : List Nat → GoStr) (s : FrameStore)
    (fID ts idem ct : GoStr) (payload : List Nat) (clk : SaveClock)
    (dOk : Bool) (entry : IdemEntry) (hidem : idem ≠ [])
    (hl : alookup idem s.byIdempotency = some entry)
    (hfresh : clk.now - entry.seenAt ≤ s.idemTTL) :
    saveFrame hashHex s fID ts idem ct payload clk dOk =
      (s, [], Except.ok { entry.frameMeta with duplicate := true }) := by
  unfold saveFrame
  simp [hidem, hl, hfresh]

theorem saveFrame_expired (hashHex : List Nat → GoStr) (s : FrameStore)
    (fID ts idem ct : GoStr) (payload : List Nat) (clk : SaveClock)
    (dOk : Bool) (entry : IdemEntry) (hidem : idem ≠ [])
    (hl : alookup idem s.byIdempotency = some entry)
    (hstale : ¬ clk.now - entry.seenAt ≤ s.idemTTL) :
    saveFrame hashHex s fID ts idem ct payload clk dOk =
      saveFrameWrite hashHex (removeIdemEntryLocked idem s) fID
        (if ts = [] then clk.nowRFC3339 else ts) idem ct
        (if sanitizeToken fID = [] then gostr "frame-" ++ intToStr clk.nanoID
          else sanitizeToken fID) payload clk dOk := by
  unfold saveFrame
  simp [hidem, hl, hstale]

theorem saveFrame_miss (hashHex : List Nat → GoStr) (s : FrameStore)
    (fID ts idem ct : GoStr) (payload : List Nat) (clk : SaveClock)
    (dOk : Bool)
    (h : idem = [] ∨ alookup idem s.byIdempotency = none) :
    saveFrame hashHex s fID ts idem ct payload clk dOk =
      saveFrameWrite hashHex s fID (if ts = [] then clk.nowRFC3339 else ts)
        idem ct
        (if sanitizeToken fID = [] then gostr "frame-" ++ intToStr clk.nanoID
          else sanitizeToken fID) payload clk dOk := by
  unfold saveFrame
  rcases h with h | h
  · simp [h]
  · by_cases hidem : idem = []
    · simp [hidem]
    · simp [hidem, h]

theorem saveFrameWrite_props (hashHex : List Nat → GoStr) (s : FrameStore)
    (fID ts idem ct cID : GoStr) (payload : List Nat) (clk : SaveClock)
    (dOk : Bool)
    (hw : (saveFrameWrite hashHex s fID ts idem ct cID payload clk dOk).2.1 ≠ []) :
    ∃ meta,
      (saveFrameWrite hashHex s fID ts idem ct cID payload clk dOk).2.2 =
        Except.ok meta
      ∧ meta.fileName = cID ++ '_' :: (intToStr clk.nanoName ++ extFromContentType ct)
      ∧ meta.path = fsJoin s.framesDir meta.fileName
      ∧ meta.contentType = ct ∧ meta.duplicate = false := by
  cases dOk with
  | false => simp [saveFrameWrite] at hw
  | true => exact ⟨_, rfl, rfl, rfl, rfl, rfl⟩

theorem frameDash_safe : ∀ c ∈ gostr "frame-", isSafeTokenChar c = true := by
  decide

/-- Claim C2: a SaveFrame call that writes a file returns a meta whose
FileName holds only characters of [A-Za-z0-9._-] (so no path separator),
ends with exactly one of .png, .jpg, .bin — the one extFromContentType
picks by case-insensitive substring match on the content type — and whose
Path resolves inside the configured frames directory. -/
theorem saveFrame_fileName_sanitized (hashHex : List Nat → GoStr)
    (s : FrameStore) (fID ts idem ct : GoStr) (payload : List Nat)
    (clk : SaveClock) (dOk : Bool)
    (hw : (saveFrame hashHex s fID ts idem ct payload clk dOk).2.1 ≠ []) :
    ∃ meta,
      (saveFrame hashHex s fID ts idem ct payload clk dOk).2.2 = Except.ok meta
      ∧ (∀ c ∈ meta.fileName, isSafeTokenChar c = true)
      ∧ '/' ∉ meta.fileName
      ∧ extFromContentType ct <:+ meta.fileName
      ∧ extFromContentType ct ∈ [gostr ".png", gostr ".jpg", gostr ".bin"]
      ∧ (∀ e ∈ [gostr ".png", gostr ".jpg", gostr ".bin"],
          e <:+ meta.fileName → e = extFromContentType ct)
      ∧ meta.contentType = ct
      ∧ resolvesInside s.framesDir meta.path := by
  have main : ∀ (t : FrameStore) (cID : GoStr) (ts' : GoStr),
      t.framesDir = s.framesDir →
      (∀ c ∈ cID, isSafeTokenChar c = true) →
      (saveFrameWrite hashHex t fID ts' idem ct cID payload clk dOk).2.1 ≠ [] →
      ∃ meta,
        (saveFrameWrite hashHex t fID ts' idem ct cID payload clk dOk).2.2 =
          Except.ok meta
        ∧ (∀ c ∈ meta.fileName, isSafeTokenChar c = true)
        ∧ '/' ∉ meta.fileName
        ∧ extFromContentType ct <:+ meta.fileName
        ∧ extFromContentType ct ∈ [gostr ".png", gostr ".jpg", gostr ".bin"]
        ∧ (∀ e ∈ [gostr ".png", gostr ".jpg", gostr ".bin"],
            e <:+ meta.fileName → e = extFromContentType ct)
        ∧ meta.contentType = ct
        ∧ resolvesInside s.framesDir meta.path := by
    intro t cID ts' hdir hsafe hw'
    obtain ⟨meta, hok, hname, hpath, hct, _⟩ :=
      saveFrameWrite_props hashHex t fID ts' idem ct cID payload clk dOk hw'
    have hnsafe : ∀ c ∈ meta.fileName, isSafeTokenChar c = true := by
      rw [hname]
      intro c hc
      rcases List.mem_append.1 hc with hc | hc
      · exact hsafe c hc
      · rcases List.mem_cons.1 hc with hc | hc
        · subst hc; decide
        · rcases List.mem_append.1 hc with hc | hc
          · exact intToStr_safe _ c hc
          · exact ext_safe ct c hc
    have hslash : '/' ∉ meta.fileName := by
      intro hmem
      have := hnsafe _ hmem
      simp [isSafeTokenChar] at this
    have hsuffix : extFromContentType ct <:+ meta.fileName := by
      refine ⟨cID ++ '_' :: intToStr clk.nanoName, ?_⟩
      rw [hname]
      simp
    have hus : '_' ∈ meta.fileName := by
      rw [hname]
      simp
    refine ⟨meta, hok, hnsafe, hslash, hsuffix, ?_, ?_, hct, ?_⟩
    · rcases ext_cases ct with h | h | h <;> rw [h] <;> simp
    · intro e he hesuf
      have hee : e = gostr ".png" ∨ e = gostr ".jpg" ∨ e = gostr ".bin" := by
        simpa using he
      refine suffix_eq_of_length hesuf hsuffix ?_
      rw [ext_length]
      rcases hee with h | h | h <;> rw [h] <;> decide
    · refine ⟨meta.fileName, ?_, ?_, ?_, ?_, hslash⟩
      · rw [hpath, hdir]; rfl
      · rw [hname]; simp
      · intro h
        rw [h] at hus
        exact absurd hus (by decide)
      · intro h
        rw [h] at hus
        exact absurd hus (by decide)
  have hcsafe : ∀ c ∈ (if sanitizeToken fID = [] then
      gostr "frame-" ++ intToStr clk.nanoID else sanitizeToken fID),
      isSafeTokenChar c = true := by
    by_cases hsan : sanitizeToken fID = []
    · simp only [if_pos hsan]
      intro c hc
      rcases List.mem_append.1 hc with hc | hc
      · exact frameDash_safe c hc
      · exact intToStr_safe _ c hc
    · simp only [if_neg hsan]
      exact sanitizeToken_safe fID
  by_cases hidem : idem = []
  · rw [saveFrame_miss hashHex s fID ts idem ct payload clk dOk (Or.inl hidem)] at hw ⊢
    exact main s _ _ rfl hcsafe hw
  · cases hl : alookup idem s.byIdempotency with
    | none =>
        rw [saveFrame_miss hashHex s fID ts idem ct payload clk dOk (Or.inr hl)] at hw ⊢
        exact main s _ _ rfl hcsafe hw
    | some entry =>
        by_cases hfresh : clk.now - entry.seenAt ≤ s.idemTTL
        · rw [saveFrame_hit hashHex s fID ts idem ct payload clk dOk entry
            hidem hl hfresh] at hw
          simp at hw
        · rw [saveFrame_expired hashHex s fID ts idem ct payload clk dOk entry
            hidem hl hfresh] at hw ⊢
          exact main (removeIdemEntryLocked idem s) _ _ rfl hcsafe hw

theorem aerase_length_le {α : Type} (k : GoStr) :
    ∀ l : List (GoStr × α), (aerase k l).length ≤ l.length
  | [] => by simp [aerase]
  | (k', v) :: rest => by
      by_cases h : k = k'
      · simp only [aerase, if_pos h, List.length_cons]
        omega
      · simp only [aerase, if_neg h, List.length_cons]
        have := aerase_length_le k rest
        omega

theorem addIdem_length_le (key : GoStr) (meta : FrameMeta) (now : Int)
    (t : FrameStore) :
    (addIdemEntryLocked key meta now t).byIdempotency.length ≤ t.idemMax := by
  unfold addIdemEntryLocked
  simp only [evictOldestLoop_eq, List.length_drop, List.length_append,
    List.length_cons, List.length_nil]
  omega

theorem addIdem_spec (key : GoStr) (meta : FrameMeta) (now : Int)
    (t : FrameStore) :
    (addIdemEntryLocked key meta now t).byIdempotency =
      (t.byIdempotency ++ [(key, ({ frameMeta := meta, seenAt := now } : IdemEntry))]).drop
        (t.byIdempotency.length + 1 - t.idemMax)
    ∧ (addIdemEntryLocked key meta now t).evictions =
        t.evictions + (t.byIdempotency.length + 1 - t.idemMax) := by
  unfold addIdemEntryLocked
  simp [evictOldestLoop_eq]

theorem saveFrameWrite_bound (hashHex : List Nat → GoStr) (t : FrameStore)
    (fID ts idem ct cID : GoStr) (payload : List Nat) (clk : SaveClock)
    (dOk : Bool) (hb : t.byIdempotency.length ≤ t.idemMax) :
    (saveFrameWrite hashHex t fID ts idem ct cID payload clk dOk).1.byIdempotency.length ≤
      t.idemMax := by
  cases dOk with
  | false => simpa [saveFrameWrite] using hb
  | true =>
      by_cases h : idem = []
      · simpa [saveFrameWrite, h] using hb
      · simp only [saveFrameWrite, if_pos rfl, if_neg h]
        exact addIdem_length_le idem _ clk.now _

/-- Claim C3: after every SaveFrame call the idempotency cache holds at
most idemMax entries; insertion appends the new entry and evicts the
oldest entries in FIFO order until the bound holds, emitting one eviction
signal (counter increment) per evicted entry. -/
theorem saveFrame_idem_cache_bound (hashHex : List Nat → GoStr)
    (s : FrameStore) (fID ts idem ct : GoStr) (payload : List Nat)
    (clk : SaveClock) (dOk : Bool)
    (hbound : s.byIdempotency.length ≤ s.idemMax) :
    (saveFrame hashHex s fID ts idem ct payload clk dOk).1.byIdempotency.length ≤
      s.idemMax
    ∧ ∀ (key : GoStr) (meta : FrameMeta) (now : Int) (t : FrameStore),
        (addIdemEntryLocked key meta now t).byIdempotency =
          (t.byIdempotency ++
            [(key, ({ frameMeta := meta, seenAt := now } : IdemEntry))]).drop
            (t.byIdempotency.length + 1 - t.idemMax)
        ∧ (addIdemEntryLocked key meta now t).evictions =
            t.evictions + (t.byIdempotency.length + 1 - t.idemMax) := by
  refine ⟨?_, fun key meta now t => addIdem_spec key meta now t⟩
  by_cases hidem : idem = []
  · rw [saveFrame_miss hashHex s fID ts idem ct payload clk dOk (Or.inl hidem)]
    exact saveFrameWrite_bound hashHex s fID _ idem ct _ payload clk dOk hbound
  · cases hl : alookup idem s.byIdempotency with
    | none =>
        rw [saveFrame_miss hashHex s fID ts idem ct payload clk dOk (Or.inr hl)]
        exact saveFrameWrite_bound hashHex s fID _ idem ct _ payload clk dOk hbound
    | some entry =>
        by_cases hfresh : clk.now - entry.seenAt ≤ s.idemTTL
        · rw [saveFrame_hit hashHex s fID ts idem ct payload clk dOk entry
            hidem hl hfresh]
          exact hbound
        · rw [saveFrame_expired hashHex s fID ts idem ct payload clk dOk entry
            hidem hl hfresh]
          refine saveFrameWrite_bound hashHex (removeIdemEntryLocked idem s) fID _
            idem ct _ payload clk dOk ?_
          show (aerase idem s.byIdempotency).length ≤ s.idemMax
          exact le_trans (aerase_length_le idem s.byIdempotency) hbound

/-- Claim C4 (amended): when the disk write fails, SaveFrame returns an
error, writes no file, and leaves last, the persisted-frame counter and
the eviction counter unchanged; the idempotency cache is unchanged except
that an expired entry under the given key has been removed before the
write was attempted; and the upload handler answers HTTP 500 exactly when
SaveFrame was called and returned an error. -/
theorem saveFrame_diskError_amended (hashHex : List Nat → GoStr)
    (s : FrameStore) (fID ts idem ct : GoStr) (payload : List Nat)
    (clk : SaveClock) :
    (∀ e, (saveFrame hashHex s fID ts idem ct payload clk false).2.2 =
        Except.error e →
      (saveFrame hashHex s fID ts idem ct payload clk false).2.1 = []
      ∧ (saveFrame hashHex s fID ts idem ct payload clk false).1.last = s.last
      ∧ (saveFrame hashHex s fID ts idem ct payload clk false).1.count = s.count
      ∧ (saveFrame hashHex s fID ts idem ct payload clk false).1.evictions =
          s.evictions
      ∧ ((saveFrame hashHex s fID ts idem ct payload clk false).1.byIdempotency =
            s.byIdempotency
          ∨ ∃ entry, alookup idem s.byIdempotency = some entry
              ∧ clk.now - entry.seenAt > s.idemTTL
              ∧ (saveFrame hashHex s fID ts idem ct payload clk
                  false).1.byIdempotency = aerase idem s.byIdempotency))
    ∧ (∀ (maxBytes : Nat) (ctH : GoStr) (src : PayloadSource) (dOk : Bool),
        ((handleFrameUpload hashHex s maxBytes ctH fID ts idem src clk dOk).status =
            500 ↔
          ∃ e, (handleFrameUpload hashHex s maxBytes ctH fID ts idem src clk
              dOk).saveResult = some (Except.error e))) := by
  constructor
  · intro e he
    by_cases hidem : idem = []
    · rw [saveFrame_miss hashHex s fID ts idem ct payload clk false
        (Or.inl hidem)] at he ⊢
      exact ⟨rfl, rfl, rfl, rfl, Or.inl rfl⟩
    · cases hl : alookup idem s.byIdempotency with
      | none =>
          rw [saveFrame_miss hashHex s fID ts idem ct payload clk false
            (Or.inr hl)] at he ⊢
          exact ⟨rfl, rfl, rfl, rfl, Or.inl rfl⟩
      | some entry =>
          by_cases hfresh : clk.now - entry.seenAt ≤ s.idemTTL
          · rw [saveFrame_hit hashHex s fID ts idem ct payload clk false entry
              hidem hl hfresh] at he
            exact absurd he (by simp)
          · rw [saveFrame_expired hashHex s fID ts idem ct payload clk false
              entry hidem hl hfresh] at he ⊢
            exact ⟨rfl, rfl, rfl, rfl, Or.inr ⟨entry, rfl, by omega, rfl⟩⟩
  · intro maxBytes ctH src dOk
    unfold handleFrameUpload
    cases hread : readUploadPayload ctH src maxBytes with
    | error e =>
        by_cases hlg : containsSub (gostr "too large") (toLowerStr e) = true
        · simp [uploadAfterRead, hlg]
        · simp [uploadAfterRead, hlg]
    | ok pr =>
        cases hsave : (saveFrame hashHex s fID ts idem pr.2 pr.1 clk dOk).2.2 with
        | error e2 => simp [uploadAfterRead, hsave]
        | ok meta => simp [uploadAfterRead, hsave]

/-- Claim C4 counterexample: a store holding an expired entry under the
key, with a failing disk write — SaveFrame returns the error, yet the
cache differs from its pre-call value (the expired entry was removed), so
the claim that the cache is exactly as before the call fails. -/
theorem saveFrame_diskError_counterexample :
    (saveFrame hashLen storeExp (gostr "f") (gostr "t") (gostr "k") (gostr "ct")
        [] clkLate false).2.2 = Except.error (gostr "write frame")
    ∧ (saveFrame hashLen storeExp (gostr "f") (gostr "t") (gostr "k")
        (gostr "ct") [] clkLate false).1.byIdempotency ≠
          storeExp.byIdempotency := by
  decide

/-- Claim C5: Acquire returns ErrSessionAlreadyActive iff an incumbent
session exists and the policy is RejectSecond; on that error the manager
is returned unchanged with no Close issued; and with no incumbent,
Acquire always succeeds, installing the peer with state Connecting. -/
theorem mgrAcquire_reject_spec (m : SessionManager) (sid : GoStr) (now : Int) :
    ((mgrAcquire m sid now).2.2 = some SessionErr.alreadyActive ↔
      (m.active ≠ none ∧ m.policy = SessionPolicy.rejectSecond))
    ∧ ((mgrAcquire m sid now).2.2 ≠ none →
        mgrAcquire m sid now = (m, [], some SessionErr.alreadyActive))
    ∧ (m.active = none →
        mgrAcquire m sid now =
          ({ m with
              active := some sid, state := SessionState.connecting,
              lastActive := now }, [], none)) := by
  cases hact : m.active with
  | none => simp [mgrAcquire, hact]
  | some a =>
      by_cases hp : m.policy = SessionPolicy.rejectSecond
      · simp [mgrAcquire, hact, hp]
      · simp [mgrAcquire, hact, hp]

/-- Claim C6: contrary to the specification, PeerSession.Close calls
Manager.Release — which acquires the manager mutex — before returning, so
the KickPrevious path of Manager.Acquire, which invokes the incumbent's
Close while already holding that non-reentrant mutex, self-deadlocks in
the single-goroutine lock model. -/
theorem kick_path_deadlocks :
    runTrace kickAcquireTrace (false, false) = none
    ∧ LAct.lockMgr ∈ closeTrace := by
  decide

/-- Claim C7 counterexample: the operation sequence Acquire("a") then
SetState(Disconnected) leaves the snapshot state Disconnected while the
snapshot session id is "a", breaking the claimed equivalence, so not every
sequence of Acquire / Release / SetState / Touch preserves the invariant. -/
theorem manager_invariant_counterexample :
    ¬ mgrInv (List.foldl applyOp (newManager SessionPolicy.rejectSecond)
      [MgrOp.acquireOp (gostr "a") 0,
        MgrOp.setStateOp SessionState.disconnected 1]) := by
  decide

theorem mgrInv_newManager (p : SessionPolicy) : mgrInv (newManager p) := by
  constructor
  · simp [newManager, activeCount]
  · simp [newManager, mgrSnapshot]

theorem mgrInv_step (m : SessionManager) (op : MgrOp) (hm : mgrInv m)
    (hok : stepOKb m op = true) : mgrInv (applyOp m op) := by
  obtain ⟨hc, hiff⟩ := hm
  cases op with
  | acquireOp sid now =>
      simp only [stepOKb, decide_eq_true_eq] at hok
      cases hact : m.active with
      | some a =>
          by_cases hp : m.policy = SessionPolicy.rejectSecond
          · simp only [applyOp, mgrAcquire, hact, if_pos hp]
            exact ⟨hc, hiff⟩
          · simp only [applyOp, mgrAcquire, hact, if_neg hp]
            constructor
            · simp [activeCount]
            · simp [mgrSnapshot, hok]
      | none =>
          simp only [applyOp, mgrAcquire, hact]
          constructor
          · simp [activeCount]
          · simp [mgrSnapshot, hok]
  | releaseOp sid now =>
      cases hact : m.active with
      | none =>
          simp only [applyOp, mgrRelease, hact]
          exact ⟨hc, hiff⟩
      | some a =>
          by_cases heq : a = sid
          · simp only [applyOp, mgrRelease, hact, if_pos heq]
            constructor
            · simp [activeCount]
            · simp [mgrSnapshot]
          · simp only [applyOp, mgrRelease, hact, if_neg heq]
            exact ⟨hc, hiff⟩
  | setStateOp st now =>
      simp only [stepOKb, decide_eq_true_eq] at hok
      constructor
      · simpa [applyOp, mgrSetState, activeCount] using hc
      · simpa [applyOp, mgrSetState, mgrSnapshot] using hok
  | touchOp now =>
      constructor
      · simpa [applyOp, mgrTouch, activeCount] using hc
      · simpa [applyOp, mgrTouch, mgrSnapshot] using hiff

theorem mgrInv_okSeq :
    ∀ (ops : List MgrOp) (m : SessionManager), mgrInv m →
      okSeq m ops = true → mgrInv (List.foldl applyOp m ops)
  | [], m, hm, _ => hm
  | op :: rest, m, hm, hok => by
      simp only [okSeq, Bool.and_eq_true] at hok
      exact mgrInv_okSeq rest (applyOp m op) (mgrInv_step m op hm hok.1) hok.2

/-- Claim C7 (amended): every sequence of manager operations in which each
Acquire installs a non-empty session id and each SetState call agrees with
the presence of a session (non-Disconnected exactly when the snapshot id
is non-empty, as the code's callers use it) preserves the invariant: at
most one session reference, and snapshot state Disconnected iff the
snapshot session id is empty. -/
theorem manager_invariant_amended (p : SessionPolicy) (ops : List MgrOp)
    (h : okSeq (newManager p) ops = true) :
    mgrInv (List.foldl applyOp (newManager p) ops) :=
  mgrInv_okSeq ops (newManager p) (mgrInv_newManager p) h


theorem readAllLimited_error_iff (data : List Nat) (maxBytes : Nat) :
    readAllLimited data maxBytes = Except.error (gostr "payload too large") ↔
      data.length > maxBytes := by
  unfold readAllLimited
  by_cases h : data.length > maxBytes
  · rw [if_pos (by rw [List.length_take]; omega)]
    exact iff_of_true rfl h
  · rw [if_neg (by rw [List.length_take]; omega)]
    exact iff_of_false (by simp) h

theorem readAllLimited_ok (data : List Nat) (maxBytes : Nat)
    (h : data.length ≤ maxBytes) :
    readAllLimited data maxBytes = Except.ok data := by
  unfold readAllLimited
  rw [List.take_of_length_le (by omega), if_neg (by omega)]

theorem tooLargeSentinel :
    containsSub (gostr "too large") (toLowerStr (gostr "payload too large")) =
      true := by
  decide

/-- Claim C8: the bounded reader fails with the distinguishable
"payload too large" sentinel exactly when the input exceeds maxUploadBytes;
for an oversized raw body or multipart file part the handler answers
HTTP 413 with error body "payload too large", writes no file and never
calls SaveFrame; and a payload of exactly maxUploadBytes passes the size
check, reaching SaveFrame with a status other than 413. -/
theorem upload_size_limit_spec (hashHex : List Nat → GoStr) (s : FrameStore)
    (maxBytes : Nat) (ctH fID ts idem : GoStr) (clk : SaveClock) (dOk : Bool) :
    (∀ data : List Nat,
        (readAllLimited data maxBytes =
            Except.error (gostr "payload too large") ↔ data.length > maxBytes))
    ∧ (∀ data : List Nat, data.length > maxBytes →
        handleFrameUpload hashHex s maxBytes ctH fID ts idem
            (PayloadSource.raw data) clk dOk =
          { store := s, writes := [], saveResult := none, status := 413
          , errBody := gostr "payload too large" })
    ∧ (∀ (fb : List Nat) (pct : GoStr), fb.length > maxBytes →
        handleFrameUpload hashHex s maxBytes ctH fID ts idem
            (PayloadSource.form none none fb pct) clk dOk =
          { store := s, writes := [], saveResult := none, status := 413
          , errBody := gostr "payload too large" })
    ∧ (∀ data : List Nat, data.length = maxBytes →
        (handleFrameUpload hashHex s maxBytes ctH fID ts idem
            (PayloadSource.raw data) clk dOk).saveResult.isSome = true
        ∧ (handleFrameUpload hashHex s maxBytes ctH fID ts idem
            (PayloadSource.raw data) clk dOk).status ≠ 413) := by
  refine ⟨fun data => readAllLimited_error_iff data maxBytes, ?_, ?_, ?_⟩
  · intro data hbig
    have herr := (readAllLimited_error_iff data maxBytes).2 hbig
    simp [handleFrameUpload, readUploadPayload, uploadAfterRead, herr,
      tooLargeSentinel]
  · intro fb pct hbig
    have herr := (readAllLimited_error_iff fb maxBytes).2 hbig
    simp [handleFrameUpload, readUploadPayload, readMultipartPayload,
      uploadAfterRead, herr, tooLargeSentinel]
  · intro data hlen
    have hok := readAllLimited_ok data maxBytes (le_of_eq hlen)
    cases hsave : (saveFrame hashHex s fID ts idem ctH data clk dOk).2.2 with
    | error e2 =>
        simp [handleFrameUpload, readUploadPayload, uploadAfterRead, hok, hsave]
    | ok meta =>
        simp [handleFrameUpload, readUploadPayload, uploadAfterRead, hok, hsave]

theorem aupsert_length_lookup {α : Type} (k : GoStr) (v : α) :
    ∀ l : List (GoStr × α),
      (aupsert k v l).length =
        (if (alookup k l).isSome then l.length else l.length + 1)
  | [] => by simp [aupsert, alookup]
  | (k', v') :: rest => by
      by_cases h : k = k'
      · simp [aupsert, alookup, h]
      · have ih := aupsert_length_lookup k v rest
        by_cases hs : (alookup k rest).isSome
        · simp [aupsert, alookup, h, hs] at ih ⊢
          omega
        · simp [aupsert, alookup, h, hs] at ih ⊢
          omega

/-- Claim C9: the rate-limiter table never exceeds its configured maximum;
when the table is full, allow for a key not in the table returns false and
increments the eviction counter while leaving every entry untouched; and a
key already present is served by its own bucket, whose allow verdict is
returned. -/
theorem limiter_allow_bound_spec {β : Type} (newBucket : β)
    (allowFn : β → Bool × β) (l : Limiter β) (ip : GoStr) (now : Int)
    (hbound : l.limiters.length ≤ l.maxEntries) :
    (limiterAllow newBucket allowFn l ip now).1.limiters.length ≤ l.maxEntries
    ∧ (alookup ip l.limiters = none → l.limiters.length ≥ l.maxEntries →
        limiterAllow newBucket allowFn l ip now =
          ({ l with evictions := l.evictions + 1 }, false))
    ∧ (∀ entry, alookup ip l.limiters = some entry →
        (limiterAllow newBucket allowFn l ip now).2 = (allowFn entry.bucket).1
        ∧ (limiterAllow newBucket allowFn l ip now).1.limiters =
            aupsert ip { bucket := (allowFn entry.bucket).2, lastSeen := now }
              l.limiters
        ∧ (limiterAllow newBucket allowFn l ip now).1.evictions = l.evictions) := by
  cases hl : alookup ip l.limiters with
  | none =>
      by_cases hfull : l.limiters.length ≥ l.maxEntries
      · refine ⟨?_, fun _ _ => ?_, fun entry hentry => ?_⟩
        · simpa [limiterAllow, hl, hfull] using hbound
        · simp [limiterAllow, hl, hfull]
        · simp at hentry
      · refine ⟨?_, fun _ hge => absurd hge hfull, fun entry hentry => ?_⟩
        · simp only [limiterAllow, hl, if_neg hfull]
          rw [aupsert_length_lookup]
          simp only [hl, Option.isSome_none, Bool.false_eq_true, if_false]
          omega
        · simp at hentry
  | some entry0 =>
      refine ⟨?_, fun hnone _ => ?_, fun entry hentry => ?_⟩
      · simp only [limiterAllow, hl]
        rw [aupsert_length_lookup]
        simpa [hl] using hbound
      · simp at hnone
      · have hee : entry0 = entry := by
          injection hentry
        subst hee
        refine ⟨?_, ?_, ?_⟩
        · simp [limiterAllow, hl]
        · simp [limiterAllow, hl]
        · simp [limiterAllow, hl]

/-- Claim C10: with an empty configured PSK (permitted at startup only
when ERMETE_ALLOW_NO_PSK is set), every request through the requirePSK
middleware is answered 401: an absent credential is rejected as missing,
and any non-empty credential fails the constant-time compare against the
empty PSK, so no request can pass. -/
theorem empty_psk_always_unauthorized (headerVal queryVal : GoStr)
    (allowQuery : Bool) :
    (requirePSK headerVal queryVal allowQuery [] =
        AuthOutcome.unauthorizedMissing ∨
      requirePSK headerVal queryVal allowQuery [] =
        AuthOutcome.unauthorizedInvalid)
    ∧ loadPSKCheck [] true = Except.ok ()
    ∧ loadPSKCheck [] false =
        Except.error
          (gostr "ERMETE_PSK is required unless ERMETE_ALLOW_NO_PSK=true") := by
  refine ⟨?_, rfl, rfl⟩
  unfold requirePSK
  by_cases h : (if headerVal = [] && allowQuery then queryVal else headerVal) = []
  · left
    rw [if_pos h]
  · right
    rw [if_neg h]
    have hne : constantTimeCompare
        (if headerVal = [] && allowQuery then queryVal else headerVal) [] ≠ 1 := by
      unfold constantTimeCompare
      rw [if_neg h]
      omega
    rw [if_pos hne]

theorem saveFrame_idem_sequence_once_witness :
    (gostr "k" ≠ ([] : GoStr))
    ∧ (∃ (m1 : FrameMeta) (s1 : FrameStore) (w1 : List (GoStr × List Nat)),
        runCalls hashLen storeA (callA :: [callB]) =
          (s1, w1 :: [callB].map (fun _ => []),
            Except.ok m1 ::
              [callB].map (fun _ => Except.ok { m1 with duplicate := true }))
        ∧ m1.duplicate = false
        ∧ w1.length = 1
        ∧ alookup (gostr "k") s1.byIdempotency =
            some { frameMeta := m1, seenAt := callA.clk.now }) :=
  ⟨by decide,
    saveFrame_idem_sequence_once hashLen storeA callA [callB] (gostr "k")
      (by decide) (by decide) (by decide) (by decide) (by decide) (by decide)
      (by decide)⟩

theorem saveFrame_fileName_sanitized_witness :
    ((saveFrame hashLen storeA (gostr "../bad:id") [] (gostr "k")
        (gostr "image/png") [1] clkA true).2.1 ≠ [])
    ∧ (∃ meta,
        (saveFrame hashLen storeA (gostr "../bad:id") [] (gostr "k")
          (gostr "image/png") [1] clkA true).2.2 = Except.ok meta
        ∧ (∀ c ∈ meta.fileName, isSafeTokenChar c = true)
        ∧ '/' ∉ meta.fileName
        ∧ extFromContentType (gostr "image/png") <:+ meta.fileName
        ∧ extFromContentType (gostr "image/png") ∈
            [gostr ".png", gostr ".jpg", gostr ".bin"]
        ∧ (∀ e ∈ [gostr ".png", gostr ".jpg", gostr ".bin"],
            e <:+ meta.fileName → e = extFromContentType (gostr "image/png"))
        ∧ meta.contentType = gostr "image/png"
        ∧ resolvesInside storeA.framesDir meta.path) :=
  ⟨by decide,
    saveFrame_fileName_sanitized hashLen storeA (gostr "../bad:id") []
      (gostr "k") (gostr "image/png") [1] clkA true (by decide)⟩

theorem saveFrame_idem_cache_bound_witness :
    storeA.byIdempotency.length ≤ storeA.idemMax
    ∧ ((saveFrame hashLen storeA (gostr "f1") [] (gostr "k")
          (gostr "image/png") [1] clkA true).1.byIdempotency.length ≤
        storeA.idemMax
      ∧ ∀ (key : GoStr) (meta : FrameMeta) (now : Int) (t : FrameStore),
          (addIdemEntryLocked key meta now t).byIdempotency =
            (t.byIdempotency ++
              [(key, ({ frameMeta := meta, seenAt := now } : IdemEntry))]).drop
              (t.byIdempotency.length + 1 - t.idemMax)
          ∧ (addIdemEntryLocked key meta now t).evictions =
              t.evictions + (t.byIdempotency.length + 1 - t.idemMax)) :=
  ⟨by decide,
    saveFrame_idem_cache_bound hashLen storeA (gostr "f1") [] (gostr "k")
      (gostr "image/png") [1] clkA true (by decide)⟩

theorem manager_invariant_amended_witness :
    okSeq (newManager SessionPolicy.kickPrevious) opsW = true
    ∧ mgrInv (List.foldl applyOp (newManager SessionPolicy.kickPrevious) opsW) :=
  ⟨by decide,
    manager_invariant_amended SessionPolicy.kickPrevious opsW (by decide)⟩

theorem limiter_allow_bound_spec_witness :
    limW.limiters.length ≤ limW.maxEntries
    ∧ ((limiterAllow 5 allowW limW (gostr "ip2") 7).1.limiters.length ≤
        limW.maxEntries
      ∧ (alookup (gostr "ip2") limW.limiters = none →
          limW.limiters.length ≥ limW.maxEntries →
          limiterAllow 5 allowW limW (gostr "ip2") 7 =
            ({ limW with evictions := limW.evictions + 1 }, false))
      ∧ (∀ entry, alookup (gostr "ip2") limW.limiters = some entry →
          (limiterAllow 5 allowW limW (gostr "ip2") 7).2 =
              (allowW entry.bucket).1
          ∧ (limiterAllow 5 allowW limW (gostr "ip2") 7).1.limiters =
              aupsert (gostr "ip2")
                { bucket := (allowW entry.bucket).2, lastSeen := 7 }
                limW.limiters
          ∧ (limiterAllow 5 allowW limW (gostr "ip2") 7).1.evictions =
              limW.evictions)) :=
  ⟨by decide,
    limiter_allow_bound_spec 5 allowW limW (gostr "ip2") 7 (by decide)⟩
